import Mathlib

/-!
Verification of the stac-fastapi request-model composition layer, the
core-client conformance/extension registry, and the proxy-header forwarding
resolver, against a shallow embedding of the repository sources
(stac_fastapi/api/models.py, stac_fastapi/types/core.py, the extension
request models, and the forwarding resolver described by the specification
and exercised by stac_fastapi/api/tests/test_middleware.py).
-/

namespace StacFastapi

/-! ### Field metadata

Pydantic v1 FieldInfo attributes, exactly the ones read and re-emitted by
create_request_model in stac_fastapi/api/models.py (lines 62-84).  A default
of `PyDefault.undefined` models pydantic Undefined (a required field, as
produced by Path(...) or a bare annotation); `PyDefault.none` models the
Python value None. -/

inductive PyDefault where
  | undefined
  | none
  | str (s : String)
  | int (n : Int)
  deriving DecidableEq, Repr

structure FieldInfo where
  default : PyDefault
  default_factory : Option String
  «alias» : Option String
  alias_priority : Option Nat
  title : Option String
  description : Option String
  const : Option Bool
  gt : Option Int
  ge : Option Int
  lt : Option Int
  le : Option Int
  multiple_of : Option Int
  min_items : Option Nat
  max_items : Option Nat
  min_length : Option Nat
  max_length : Option Nat
  regex : Option String
  extra : List (String × String)
  deriving DecidableEq, Repr

/-- A FieldInfo with every attribute unset and a required (Undefined) default,
the state of a plain annotation before any Query/Path/Field metadata. -/
def FieldInfo.base : FieldInfo where
  default := .undefined
  default_factory := Option.none
  «alias» := Option.none
  alias_priority := Option.none
  title := Option.none
  description := Option.none
  const := Option.none
  gt := Option.none
  ge := Option.none
  lt := Option.none
  le := Option.none
  multiple_of := Option.none
  min_items := Option.none
  max_items := Option.none
  min_length := Option.none
  max_length := Option.none
  regex := Option.none
  extra := []

/-- One declared field of a request model: its name, its outer type
annotation (kept as the source text of the annotation), and its metadata. -/
structure ModelField where
  name : String
  outer_type : String
  info : FieldInfo
  deriving DecidableEq, Repr

/-- The two kinds of request model the composer distinguishes:
`query` models APIRequest subclasses (attrs classes bound to query/path
parameters, used for GET) and `body` models pydantic BaseModel subclasses
(JSON bodies, used for POST).  `issubclass(m, APIRequest)` gives kind = query,
`issubclass(m, BaseModel)` gives kind = body. -/
inductive ModelKind where
  | query
  | body
  deriving DecidableEq, Repr

/-- A request model class: its name, kind, the names of its declared base
classes in order, and its effective field list (inherited fields first, in
declaration order, as attrs and pydantic both present them). -/
structure RequestModel where
  name : String
  kind : ModelKind
  baseNames : List String
  fields : List ModelField
  deriving DecidableEq, Repr

def RequestModel.getField (m : RequestModel) (n : String) : Option ModelField :=
  m.fields.find? (fun f => f.name == n)

/-- Modelled from the spec: ApiExtension (stac_fastapi/types/extension.py is
absent from the sources) declares a conformance-class list and a mapping from
HTTP method to an optional contributed request model; `typeName` models the
Python value `type(ext).__name__` used by the registry lookups. -/
structure ApiExtension where
  typeName : String
  conformance_classes : List String
  getRequest : Option RequestModel
  postRequest : Option RequestModel
  deriving DecidableEq, Repr

/-- Modelled from the spec: `extension.get_request_model(request_type)`
returns the ParameterSet the extension contributes for the given HTTP
method, or nothing. -/
def ApiExtension.get_request_model (e : ApiExtension) (request_type : String) :
    Option RequestModel :=
  if request_type = "GET" then e.getRequest
  else if request_type = "POST" then e.postRequest
  else Option.none

/-! ### create_request_model (stac_fastapi/api/models.py lines 34-88) -/

/-- Add one field to an accumulated field list unless a field of the same
name is already present.  This models the attrs base-class field collection
performed by `attr.make_class(model_name, attrs={}, bases=tuple(models))`:
on the disjoint field names the composition relies on, every order of
collection yields this ordered union. -/
def addField (acc : List ModelField) (f : ModelField) : List ModelField :=
  if acc.any (fun g => g.name == f.name) then acc else acc ++ [f]

/-- Field set of an attrs class whose bases are `models`, base first. -/
def unionFields (models : List RequestModel) : List ModelField :=
  models.foldl (fun acc m => m.fields.foldl addField acc) []

/-- `attr.make_class(model_name, attrs={}, bases=tuple(models))`: a new
query-kind class whose bases are the given models in order and whose field
set is collected from them. -/
def attr_make_class (model_name : String) (models : List RequestModel) :
    RequestModel where
  name := model_name
  kind := .query
  baseNames := models.map (fun m => m.name)
  fields := unionFields models

/-- The `Body(...)` re-derivation of models.py lines 63-84: every FieldInfo
attribute is copied through unchanged, except that an Undefined default is
replaced by None (`None if isinstance(field_info.default, UndefinedType)
else field_info.default`). -/
def bodyOfFieldInfo (fi : FieldInfo) : FieldInfo :=
  { fi with
    default :=
      match fi.default with
      | .undefined => .none
      | d => d }

/-- Python dict assignment `fields[k] = v`: replace the value in place when
the key exists (keeping its position), append otherwise. -/
def dictInsert (fields : List ModelField) (f : ModelField) : List ModelField :=
  if fields.any (fun g => g.name == f.name) then
    fields.map (fun g => if g.name == f.name then f else g)
  else fields ++ [f]

/-- A declared field re-derived as a body parameter: same name and type,
Body-re-derived metadata. -/
def bodyField (f : ModelField) : ModelField :=
  { f with info := bodyOfFieldInfo f.info }

/-- The POST-branch field dict of models.py lines 60-85: for every model in
order, for every field, insert the Body-re-derived field under its name. -/
def flattenBodyFields (models : List RequestModel) : List ModelField :=
  models.foldl
    (fun acc m => m.fields.foldl (fun acc2 f => dictInsert acc2 (bodyField f)) acc)
    []

/-- `pydantic.create_model(model_name, **fields, __base__=base_model)`: a
body-kind class with the base model as its single parent and the passed
field dict as its fields (every base field name reappears in the dict, so
the dict is the effective field list). -/
def pydantic_create_model (model_name : String) (fields : List ModelField)
    (base_model : RequestModel) : RequestModel where
  name := model_name
  kind := .body
  baseNames := [base_model.name]
  fields := fields

/-- The model list assembled by create_request_model (models.py line 52):
the base model, then each extension contribution for the request type, then
the mixins. -/
def requestModels (base_model : RequestModel) (extensions : List ApiExtension)
    (mixins : List RequestModel) (request_type : String) : List RequestModel :=
  base_model :: (extensions.filterMap (fun e => e.get_request_model request_type) ++ mixins)

/-- create_request_model (models.py lines 34-88): if all models are
query-kind, compose by attrs multiple inheritance; else if all are
body-kind, flatten into one pydantic model over the base; otherwise raise
TypeError. -/
def create_request_model (model_name : String) (base_model : RequestModel)
    (extensions : List ApiExtension) (mixins : List RequestModel)
    (request_type : String) : Except String RequestModel :=
  let models := requestModels base_model extensions mixins request_type
  if models.all (fun m => m.kind == .query) then
    .ok (attr_make_class model_name models)
  else if models.all (fun m => m.kind == .body) then
    .ok (pydantic_create_model model_name (flattenBodyFields models) base_model)
  else
    .error "Mixed Request Model types. Check extension request types."

/-! ### Concrete request models declared in the sources

The description texts live in stac_fastapi/api/descriptions.py, which is not
among the sources; each is modelled as the opaque symbolic string of the
constant it names (no claim inspects their content). -/

def CRS84 : String := "http://www.opengis.net/def/crs/OGC/1.3/CRS84"

/-- CollectionUri (models.py lines 115-121). -/
def CollectionUri : RequestModel where
  name := "CollectionUri"
  kind := .query
  baseNames := ["APIRequest"]
  fields :=
    [{ name := "collection_id", outer_type := "str",
       info := { FieldInfo.base with
                 description := some "descriptions.COLLECTION_ID" } }]

/-- ItemUri (models.py lines 124-134), subclass of CollectionUri. -/
def ItemUri : RequestModel where
  name := "ItemUri"
  kind := .query
  baseNames := ["CollectionUri"]
  fields := CollectionUri.fields ++
    [{ name := "item_id", outer_type := "str",
       info := { FieldInfo.base with
                 description := some "descriptions.ITEM_ID" } },
     { name := "crs", outer_type := "Optional[str]",
       info := { FieldInfo.base with
                 default := .str CRS84,
                 description := some "descriptions.CRS" } }]

/-- EmptyRequest (models.py lines 137-141). -/
def EmptyRequest : RequestModel where
  name := "EmptyRequest"
  kind := .query
  baseNames := ["APIRequest"]
  fields := []

/-- ItemCollectionUri (models.py lines 144-193), subclass of CollectionUri;
the str2bbox and str_to_interval converters act on request binding, not on
the declared field metadata, and are not modelled. -/
def ItemCollectionUri : RequestModel where
  name := "ItemCollectionUri"
  kind := .query
  baseNames := ["CollectionUri"]
  fields := CollectionUri.fields ++
    [{ name := "limit", outer_type := "int",
       info := { FieldInfo.base with
                 default := .int 10,
                 description := some "descriptions.LIMIT" } },
     { name := "bbox", outer_type := "Optional[BBox]",
       info := { FieldInfo.base with
                 default := .none,
                 description := some "descriptions.BBOX" } },
     { name := "bbox_crs", outer_type := "Optional[str]",
       info := { FieldInfo.base with
                 default := .str CRS84,
                 «alias» := some "bbox-crs",
                 description := some "descriptions.BBOX_CRS" } },
     { name := "datetime", outer_type := "Optional[DateTimeType]",
       info := { FieldInfo.base with
                 default := .none,
                 description := some "descriptions.DATETIME" } },
     { name := "crs", outer_type := "Optional[str]",
       info := { FieldInfo.base with
                 default := .str CRS84,
                 description := some "descriptions.CRS" } },
     { name := "filter", outer_type := "Optional[str]",
       info := { FieldInfo.base with
                 default := .none,
                 description := some "descriptions.FILTER" } },
     { name := "filter_lang", outer_type := "Optional[str]",
       info := { FieldInfo.base with
                 default := .str "cql-json",
                 «alias» := some "filter-lang",
                 description := some "descriptions.FILTER_LANG" } },
     { name := "filter_crs", outer_type := "Optional[str]",
       info := { FieldInfo.base with
                 default := .str CRS84,
                 «alias» := some "filter-crs",
                 description := some "descriptions.FILTER_CRS" } }]

/-- POSTTokenPagination (models.py lines 196-200). -/
def POSTTokenPagination : RequestModel where
  name := "POSTTokenPagination"
  kind := .body
  baseNames := ["BaseModel"]
  fields :=
    [{ name := "pt", outer_type := "Optional[str]",
       info := { FieldInfo.base with default := .none } }]

/-- GETTokenPagination (models.py lines 203-213). -/
def GETTokenPagination : RequestModel where
  name := "GETTokenPagination"
  kind := .query
  baseNames := ["APIRequest"]
  fields :=
    [{ name := "pt", outer_type := "Optional[str]",
       info := { FieldInfo.base with
                 default := .none,
                 description := some "descriptions.PAGING_TOKEN" } }]

/-- CrsExtensionGetRequest (extensions/core/crs/request.py lines 15-20). -/
def CrsExtensionGetRequest : RequestModel where
  name := "CrsExtensionGetRequest"
  kind := .query
  baseNames := ["APIRequest"]
  fields :=
    [{ name := "crs", outer_type := "Optional[crs_url]",
       info := { FieldInfo.base with default := .str CRS84 } },
     { name := "bbox_crs", outer_type := "Optional[crs_url]",
       info := { FieldInfo.base with
                 default := .str CRS84,
                 «alias» := some "bbox-crs" } }]

/-- CrsExtensionPostRequest (extensions/core/crs/request.py lines 23-27). -/
def CrsExtensionPostRequest : RequestModel where
  name := "CrsExtensionPostRequest"
  kind := .body
  baseNames := ["BaseModel"]
  fields :=
    [{ name := "crs", outer_type := "Optional[crs_url]",
       info := { FieldInfo.base with default := .str CRS84 } },
     { name := "bbox_crs", outer_type := "Optional[crs_url]",
       info := { FieldInfo.base with
                 default := .str CRS84,
                 «alias» := some "bbox-crs" } }]

/-- FilterExtensionGetRequest (extensions/core/filter/request.py lines 30-38). -/
def FilterExtensionGetRequest : RequestModel where
  name := "FilterExtensionGetRequest"
  kind := .query
  baseNames := ["APIRequest"]
  fields :=
    [{ name := "filter", outer_type := "Optional[str]",
       info := { FieldInfo.base with default := .none } },
     { name := "filter_crs", outer_type := "Optional[crs_url]",
       info := { FieldInfo.base with
                 default := .str CRS84,
                 «alias» := some "filter-crs" } },
     { name := "filter_lang", outer_type := "Optional[FilterLang]",
       info := { FieldInfo.base with
                 default := .str "cql-json",
                 «alias» := some "filter-lang" } }]

/-- FilterExtensionPostRequest (extensions/core/filter/request.py lines 41-47). -/
def FilterExtensionPostRequest : RequestModel where
  name := "FilterExtensionPostRequest"
  kind := .body
  baseNames := ["BaseModel"]
  fields :=
    [{ name := "filter", outer_type := "Optional[Dict[str, Any]]",
       info := { FieldInfo.base with default := .none } },
     { name := "filter_crs", outer_type := "Optional[crs_url]",
       info := { FieldInfo.base with
                 default := .str CRS84,
                 «alias» := some "filter-crs" } },
     { name := "filter_lang", outer_type := "Optional[FilterLang]",
       info := { FieldInfo.base with
                 default := .str "cql-json",
                 «alias» := some "filter-lang" } }]

/-! ### BaseCoreClient (stac_fastapi/types/core.py lines 329-374) -/

/-- The attributes of BaseCoreClient the registry operations read: the
base conformance-class list and the ordered extension list. -/
structure BaseCoreClient where
  base_conformance_classes : List String
  extensions : List ApiExtension
  deriving DecidableEq, Repr

/-- conformance_classes (core.py lines 343-352): copy the base list, extend
it with each extension's class list, and return `list(set(...))`.  Python
materialises the set in unspecified order; it is modelled by `List.dedup`,
which has the same membership and no duplicate entries. -/
def BaseCoreClient.conformance_classes (c : BaseCoreClient) : List String :=
  (c.extensions.foldl (fun acc e => acc ++ e.conformance_classes)
    c.base_conformance_classes).dedup

/-- extension_is_enabled (core.py lines 354-356): linear scan comparing the
declared type name. -/
def BaseCoreClient.extension_is_enabled (c : BaseCoreClient) (extension : String) :
    Bool :=
  c.extensions.any (fun ext => ext.typeName == extension)

/-- get_extension (core.py lines 358-364): filter by declared type name,
return the first match, raise NotFoundError otherwise. -/
def BaseCoreClient.get_extension (c : BaseCoreClient) (extension : String) :
    Except String ApiExtension :=
  match c.extensions.filter (fun ext => ext.typeName == extension) with
  | ext :: _ => .ok ext
  | [] => .error ("Extenson " ++ extension ++ " not found")

/-- The module-level state read and written by list_conformance_classes:
the list object bound to BASE_CONFORMANCE_CLASSES in
stac_fastapi/types/conformance.py. -/
structure ConformanceState where
  BASE_CONFORMANCE_CLASSES : List String
  deriving DecidableEq, Repr

/-- list_conformance_classes (core.py lines 366-374): the local name
base_conformance is bound to the module-level BASE_CONFORMANCE_CLASSES list
object itself (no copy), and each `base_conformance.extend(...)` mutates
that shared object in place; modelled by explicit state passing, returning
the produced list together with the updated module state. -/
def BaseCoreClient.list_conformance_classes (c : BaseCoreClient)
    (st : ConformanceState) : List String × ConformanceState :=
  let base_conformance :=
    c.extensions.foldl (fun acc e => acc ++ e.conformance_classes)
      st.BASE_CONFORMANCE_CLASSES
  (base_conformance, ⟨base_conformance⟩)

/-! ### ProxyHeaderMiddleware forwarding resolver

stac_fastapi/api/middleware.py is absent from the sources; only its tests
(stac_fastapi/api/tests/test_middleware.py) are present.  The three helper
operations below are therefore modelled from the specification (sections
4.2, 7 and 8) and checked against the concrete scopes of the tests. -/

/-- The parts of an ASGI request scope the resolver reads: the scheme, the
server host and port from the `server` entry, and the decoded header list. -/
structure Scope where
  scheme : String
  serverHost : String
  serverPort : Option Nat
  headers : List (String × String)
  deriving DecidableEq, Repr

/-- Lower-case a string character by character (ASCII case folding, the
case-insensitivity of HTTP header names).  Defined over the character list
so that it reduces by computation. -/
def lowerStr (s : String) : String :=
  ⟨s.data.map Char.toLower⟩

/-- Case-insensitive equality of header names. -/
def headerNameEq (a b : String) : Bool :=
  lowerStr a == lowerStr b

/-- Modelled from the spec: ProxyHeaderMiddleware._get_header_value_by_name
(middleware.py is missing from the sources) reads a header value by
case-insensitive name from the header list, first match, null if absent. -/
def getHeaderValueByName (headers : List (String × String)) (name : String) :
    Option String :=
  (headers.find? (fun h => headerNameEq h.1 name)).map (fun h => h.2)

/-- Modelled from the spec: ProxyHeaderMiddleware._replace_header_value_by_name
(middleware.py is missing from the sources) returns a new header list with
one named header's value replaced, or the header appended when absent,
preserving the order and all other headers unchanged. -/
def replaceHeaderValueByName (headers : List (String × String))
    (name value : String) : List (String × String) :=
  match headers with
  | [] => [(name, value)]
  | h :: rest =>
    if headerNameEq h.1 name then (h.1, value) :: rest
    else h :: replaceHeaderValueByName rest name value

/-- Split a character list at every occurrence of the separator. -/
def splitChars (sep : Char) : List Char → List (List Char)
  | [] => [[]]
  | c :: rest =>
    if c = sep then [] :: splitChars sep rest
    else
      match splitChars sep rest with
      | [] => [[c]]
      | h :: t => (c :: h) :: t

/-- Split a string at every occurrence of the separator character. -/
def splitOnChar (sep : Char) (s : String) : List String :=
  (splitChars sep s.data).map (fun l => ⟨l⟩)

/-- Split a host value of shape host:port on the last colon, returning the
host part and the port segment when a colon is present. -/
def splitLastColonChars : List Char → List Char × Option (List Char)
  | [] => ([], Option.none)
  | c :: rest =>
    match splitLastColonChars rest with
    | (h, some p) => (c :: h, some p)
    | (_, Option.none) =>
      if c = ':' then ([], some rest) else (c :: rest, Option.none)

/-- String version of `splitLastColonChars`. -/
def splitLastColon (s : String) : String × Option String :=
  match splitLastColonChars s.data with
  | (h, some p) => (⟨h⟩, some (⟨p⟩ : String))
  | (h, Option.none) => (⟨h⟩, Option.none)

/-- Parse a non-empty all-digit character list as a decimal number, the
acceptance of Python int(...) on port segments. -/
def digitsToNat? (l : List Char) : Option Nat :=
  if l.isEmpty then Option.none
  else if l.all Char.isDigit then
    some (l.foldl (fun acc c => acc * 10 + (c.toNat - 48)) 0)
  else Option.none

/-- Parse a string as a decimal number, nothing when malformed. -/
def strToNat? (s : String) : Option Nat :=
  digitsToNat? s.data

/-- Parse the directives of a Forwarded header value: parts separated by
semicolons, each of shape key=value. -/
def parseDirectives (s : String) : List (String × String) :=
  (splitOnChar ';' s).filterMap (fun part =>
    match splitOnChar '=' part with
    | [k, v] => some (k, v)
    | _ => Option.none)

/-- Look up the first directive with the given key. -/
def findDirective (dirs : List (String × String)) (key : String) :
    Option String :=
  (dirs.find? (fun d => d.1 == key)).map (fun d => d.2)

/-- Modelled from the spec: ProxyHeaderMiddleware._get_forwarded_url_parts
(middleware.py is missing from the sources) resolves the externally visible
(scheme, host, port, path prefix) with precedence Forwarded, then the
X-Forwarded-* family, then the bare Host header.  A Forwarded host=host:port
directive is split on the last colon and a port segment that does not parse
as an integer falls back to the original request port; X-Forwarded-Host
overrides the host and leaves the port at the original request port;
X-Forwarded-Port overrides the port when numeric and is ignored otherwise;
X-Forwarded-Proto overrides the scheme; a bare Host header supplies a port
only when it embeds one; X-Forwarded-Prefix is returned verbatim as the
path prefix, null when absent. -/
def getForwardedUrlParts (scope : Scope) :
    String × String × Option Nat × Option String :=
  let rootPath := getHeaderValueByName scope.headers "x-forwarded-prefix"
  match getHeaderValueByName scope.headers "forwarded" with
  | some fwd =>
    let dirs := parseDirectives fwd
    let scheme := (findDirective dirs "proto").getD scope.scheme
    match findDirective dirs "host" with
    | some hostVal =>
      let hp := splitLastColon hostVal
      let port :=
        match hp.2 with
        | some seg =>
          match strToNat? seg with
          | some n => some n
          | Option.none => scope.serverPort
        | Option.none => scope.serverPort
      (scheme, hp.1, port, rootPath)
    | Option.none => (scheme, scope.serverHost, scope.serverPort, rootPath)
  | Option.none =>
    let scheme :=
      (getHeaderValueByName scope.headers "x-forwarded-proto").getD scope.scheme
    let hostPort : String × Option Nat :=
      match getHeaderValueByName scope.headers "x-forwarded-host" with
      | some h => (h, scope.serverPort)
      | Option.none =>
        match getHeaderValueByName scope.headers "host" with
        | some hv =>
          let hp := splitLastColon hv
          match hp.2 with
          | some seg => (hp.1, strToNat? seg)
          | Option.none => (hp.1, Option.none)
        | Option.none => (scope.serverHost, scope.serverPort)
    let port :=
      match getHeaderValueByName scope.headers "x-forwarded-port" with
      | some p =>
        match strToNat? p with
        | some n => some n
        | Option.none => hostPort.2
      | Option.none => hostPort.2
    (scheme, hostPort.1, port, rootPath)

/-! ### Helper lemmas -/

/-- An extension whose only contribution is the given GET request model. -/
def mkGetExtension (m : RequestModel) : ApiExtension where
  typeName := m.name ++ "Extension"
  conformance_classes := []
  getRequest := some m
  postRequest := Option.none

/-- An extension whose only contribution is the given POST request model. -/
def mkPostExtension (m : RequestModel) : ApiExtension where
  typeName := m.name ++ "Extension"
  conformance_classes := []
  getRequest := Option.none
  postRequest := some m

theorem requestModels_mkGet (base : RequestModel) (exts : List RequestModel) :
    requestModels base (exts.map mkGetExtension) [] "GET" = base :: exts := by
  simp [requestModels, List.filterMap_map, ApiExtension.get_request_model,
    mkGetExtension, Function.comp_def]

theorem requestModels_mkPost (base : RequestModel) (exts : List RequestModel) :
    requestModels base (exts.map mkPostExtension) [] "POST" = base :: exts := by
  simp [requestModels, List.filterMap_map, ApiExtension.get_request_model,
    mkPostExtension, Function.comp_def]

theorem foldl_addField_disjoint (fs : List ModelField) :
    ∀ acc : List ModelField,
      (∀ f ∈ fs, ∀ g ∈ acc, g.name ≠ f.name) →
      (fs.map (fun f => f.name)).Nodup →
      fs.foldl addField acc = acc ++ fs := by
  induction fs with
  | nil => intro acc _ _; simp
  | cons f fs ih =>
    intro acc hdisj hnd
    simp only [List.map_cons, List.nodup_cons, List.mem_map] at hnd
    have hnotin : acc.any (fun g => g.name == f.name) = false := by
      simp only [List.any_eq_false, beq_iff_eq]
      intro g hg
      exact hdisj f (by simp) g hg
    have h1 : addField acc f = acc ++ [f] := by
      simp [addField, hnotin]
    rw [List.foldl_cons, h1,
      ih (acc ++ [f]) ?_ hnd.2]
    · simp
    · intro f2 hf2 g hg
      rcases List.mem_append.mp hg with hga | hgf
      · exact hdisj f2 (by simp [hf2]) g hga
      · have : g = f := by simpa using hgf
        subst this
        intro hEq
        exact hnd.1 ⟨f2, hf2, hEq.symm⟩

theorem unionFields_foldl_disjoint (models : List RequestModel) :
    ∀ acc : List ModelField,
      (∀ m ∈ models, ∀ f ∈ m.fields, ∀ g ∈ acc, g.name ≠ f.name) →
      (((models.flatMap (fun m => m.fields)).map (fun f => f.name))).Nodup →
      models.foldl (fun acc m => m.fields.foldl addField acc) acc
        = acc ++ models.flatMap (fun m => m.fields) := by
  induction models with
  | nil => intro acc _ _; simp
  | cons m ms ih =>
    intro acc hdisj hnd
    rw [List.flatMap_cons, List.map_append, List.nodup_append] at hnd
    obtain ⟨hnd1, hnd2, hdisj12⟩ := hnd
    rw [List.foldl_cons,
      foldl_addField_disjoint m.fields acc (fun f hf g hg => hdisj m (by simp) f hf g hg) hnd1,
      ih (acc ++ m.fields) ?_ hnd2]
    · simp [List.flatMap_cons]
    · intro m2 hm2 f hf g hg
      rcases List.mem_append.mp hg with hga | hgm
      · exact hdisj m2 (by simp [hm2]) f hf g hga
      · intro hEq
        apply hdisj12 (List.mem_map_of_mem _ hgm)
        rw [hEq]
        exact List.mem_map_of_mem _ (List.mem_flatMap.mpr ⟨m2, hm2, hf⟩)

theorem unionFields_disjoint (models : List RequestModel)
    (hnd : ((models.flatMap (fun m => m.fields)).map (fun f => f.name)).Nodup) :
    unionFields models = models.flatMap (fun m => m.fields) := by
  have := unionFields_foldl_disjoint models [] (by simp) hnd
  simpa [unionFields] using this

theorem all_kind_query_of_forall (models : List RequestModel)
    (h : ∀ m ∈ models, m.kind = .query) :
    models.all (fun m => m.kind == .query) = true := by
  rw [List.all_eq_true]
  intro m hm
  simp [h m hm]

theorem all_kind_body_of_forall (models : List RequestModel)
    (h : ∀ m ∈ models, m.kind = .body) :
    models.all (fun m => m.kind == .body) = true := by
  rw [List.all_eq_true]
  intro m hm
  simp [h m hm]

/-! ### Claims about create_request_model -/

/-- C1: for every call to create_request_model whose assembled model list
(base model, extension contributions for the request type, mixins) holds at
least one query-parameter-kind model (APIRequest subclass) and at least one
body-kind model (BaseModel subclass), the call raises TypeError with the
mixed-request-model message and never returns a composed model. -/
theorem create_request_model_mixed_kinds_error
    (model_name : String) (base_model : RequestModel)
    (extensions : List ApiExtension) (mixins : List RequestModel)
    (request_type : String)
    (hq : ∃ m ∈ requestModels base_model extensions mixins request_type,
      m.kind = .query)
    (hb : ∃ m ∈ requestModels base_model extensions mixins request_type,
      m.kind = .body) :
    create_request_model model_name base_model extensions mixins request_type
      = .error "Mixed Request Model types. Check extension request types." := by
  obtain ⟨mq, hmq, hkq⟩ := hq
  obtain ⟨mb, hmb, hkb⟩ := hb
  have h1 : (requestModels base_model extensions mixins request_type).all
      (fun m => m.kind == .query) = false := by
    cases hall : (requestModels base_model extensions mixins request_type).all
        (fun m => m.kind == .query) with
    | false => rfl
    | true =>
      have := List.all_eq_true.mp hall mb hmb
      rw [hkb] at this
      simp at this
  have h2 : (requestModels base_model extensions mixins request_type).all
      (fun m => m.kind == .body) = false := by
    cases hall : (requestModels base_model extensions mixins request_type).all
        (fun m => m.kind == .body) with
    | false => rfl
    | true =>
      have := List.all_eq_true.mp hall mq hmq
      rw [hkq] at this
      simp at this
  simp [create_request_model, h1, h2]

/-- Witness for C1: composing the query-kind CollectionUri base with the
body-kind CrsExtensionPostRequest mixin raises the TypeError. -/
theorem create_request_model_mixed_kinds_error_witness :
    create_request_model "MixedModel" CollectionUri [] [CrsExtensionPostRequest] "POST"
      = .error "Mixed Request Model types. Check extension request types." :=
  create_request_model_mixed_kinds_error "MixedModel" CollectionUri []
    [CrsExtensionPostRequest] "POST"
    ⟨CollectionUri, by decide, by decide⟩
    ⟨CrsExtensionPostRequest, by decide, by decide⟩

/-- C2: for every base ParameterSet and ordered list of extension
ParameterSets of query-parameter kind with pairwise disjoint field names,
create_request_model with request type GET returns a model whose field list
is exactly the union (concatenation) of all input models' fields - so each
field keeps the default value and alias of its declaration in the
contributing model - and whose inheritance order is the input list order,
base first. -/
theorem create_request_model_get_union
    (model_name : String) (base_model : RequestModel) (exts : List RequestModel)
    (hq : ∀ m ∈ base_model :: exts, m.kind = .query)
    (hnd : (((base_model :: exts).flatMap (fun m => m.fields)).map
      (fun f => f.name)).Nodup) :
    ∃ M, create_request_model model_name base_model (exts.map mkGetExtension) []
        "GET" = .ok M
      ∧ M.baseNames = (base_model :: exts).map (fun m => m.name)
      ∧ M.fields = (base_model :: exts).flatMap (fun m => m.fields)
      ∧ (∀ f, f ∈ M.fields ↔ ∃ m ∈ base_model :: exts, f ∈ m.fields) := by
  refine ⟨attr_make_class model_name (base_model :: exts), ?_, ?_, ?_, ?_⟩
  · rw [create_request_model, requestModels_mkGet,
      all_kind_query_of_forall _ hq]
    simp
  · simp [attr_make_class]
  · simp [attr_make_class, unionFields_disjoint _ hnd]
  · intro f
    simp [attr_make_class, unionFields_disjoint _ hnd, List.mem_flatMap]

/-- Witness for C2: composing CollectionUri with the CRS and Filter GET
extension models yields the nine-field union in declaration order. -/
theorem create_request_model_get_union_witness :
    ∃ M, create_request_model "SearchGetRequest" CollectionUri
        ([CrsExtensionGetRequest, FilterExtensionGetRequest].map mkGetExtension) []
        "GET" = .ok M
      ∧ M.baseNames = ([CollectionUri, CrsExtensionGetRequest,
          FilterExtensionGetRequest].map (fun m => m.name))
      ∧ M.fields = ([CollectionUri, CrsExtensionGetRequest,
          FilterExtensionGetRequest].flatMap (fun m => m.fields))
      ∧ (∀ f, f ∈ M.fields ↔ ∃ m ∈ [CollectionUri, CrsExtensionGetRequest,
          FilterExtensionGetRequest], f ∈ m.fields) :=
  create_request_model_get_union "SearchGetRequest" CollectionUri
    [CrsExtensionGetRequest, FilterExtensionGetRequest]
    (by decide) (by decide)

theorem foldl_dictInsert_disjoint (fs : List ModelField) :
    ∀ acc : List ModelField,
      (∀ f ∈ fs, ∀ g ∈ acc, g.name ≠ f.name) →
      (fs.map (fun f => f.name)).Nodup →
      fs.foldl (fun acc2 f => dictInsert acc2 (bodyField f)) acc
        = acc ++ fs.map bodyField := by
  induction fs with
  | nil => intro acc _ _; simp
  | cons f fs ih =>
    intro acc hdisj hnd
    simp only [List.map_cons, List.nodup_cons, List.mem_map] at hnd
    have hnotin : acc.any (fun g => g.name == (bodyField f).name) = false := by
      simp only [List.any_eq_false, beq_iff_eq, bodyField]
      intro g hg
      exact hdisj f (by simp) g hg
    have h1 : dictInsert acc (bodyField f) = acc ++ [bodyField f] := by
      simp only [dictInsert, hnotin]
      simp
    rw [List.foldl_cons, h1, ih (acc ++ [bodyField f]) ?_ hnd.2]
    · simp
    · intro f2 hf2 g hg
      rcases List.mem_append.mp hg with hga | hgf
      · exact hdisj f2 (by simp [hf2]) g hga
      · have : g = bodyField f := by simpa using hgf
        subst this
        intro hEq
        simp only [bodyField] at hEq
        exact hnd.1 ⟨f2, hf2, hEq.symm⟩

theorem flattenBodyFields_foldl_disjoint (models : List RequestModel) :
    ∀ acc : List ModelField,
      (∀ m ∈ models, ∀ f ∈ m.fields, ∀ g ∈ acc, g.name ≠ f.name) →
      ((models.flatMap (fun m => m.fields)).map (fun f => f.name)).Nodup →
      models.foldl
        (fun acc m => m.fields.foldl (fun acc2 f => dictInsert acc2 (bodyField f)) acc)
        acc
        = acc ++ (models.flatMap (fun m => m.fields)).map bodyField := by
  induction models with
  | nil => intro acc _ _; simp
  | cons m ms ih =>
    intro acc hdisj hnd
    rw [List.flatMap_cons, List.map_append, List.nodup_append] at hnd
    obtain ⟨hnd1, hnd2, hdisj12⟩ := hnd
    rw [List.foldl_cons,
      foldl_dictInsert_disjoint m.fields acc
        (fun f hf g hg => hdisj m (by simp) f hf g hg) hnd1,
      ih (acc ++ m.fields.map bodyField) ?_ hnd2]
    · simp [List.flatMap_cons]
    · intro m2 hm2 f hf g hg
      rcases List.mem_append.mp hg with hga | hgm
      · exact hdisj m2 (by simp [hm2]) f hf g hga
      · obtain ⟨f0, hf0, hgf0⟩ := List.mem_map.mp hgm
        subst hgf0
        intro hEq
        simp only [bodyField] at hEq
        apply hdisj12 (List.mem_map_of_mem _ hf0)
        rw [hEq]
        exact List.mem_map_of_mem _ (List.mem_flatMap.mpr ⟨m2, hm2, hf⟩)

theorem flattenBodyFields_disjoint (models : List RequestModel)
    (hnd : ((models.flatMap (fun m => m.fields)).map (fun f => f.name)).Nodup) :
    flattenBodyFields models
      = (models.flatMap (fun m => m.fields)).map bodyField := by
  have := flattenBodyFields_foldl_disjoint models [] (by simp) hnd
  simpa [flattenBodyFields] using this

/-- A body-kind model with a single required field (no declared default,
pydantic Undefined), the concrete input that exhibits the Undefined-to-None
default rewrite performed by the POST composition. -/
def RequiredFieldBodyModel : RequestModel where
  name := "RequiredFieldBodyModel"
  kind := .body
  baseNames := ["BaseModel"]
  fields :=
    [{ name := "payload", outer_type := "str", info := FieldInfo.base }]

/-- Counterexample to C3 as stated: the field `payload` of the body-kind
base model declares no default (pydantic Undefined), yet in the composed
POST model the field carries default None, which differs from the original
declaration, because Body(...) receives
`None if isinstance(field_info.default, UndefinedType) else field_info.default`. -/
theorem create_request_model_post_default_cex :
    (RequiredFieldBodyModel.getField "payload").map (fun f => f.info.default)
        = some PyDefault.undefined
    ∧ (match create_request_model "TestPostRequest" RequiredFieldBodyModel [] [] "POST" with
       | .ok M => (M.getField "payload").map (fun f => f.info.default)
       | .error _ => Option.none)
        = some PyDefault.none
    ∧ PyDefault.none ≠ PyDefault.undefined := by decide

/-- C3 (amended): for every base model and list of extension models all of
body kind with pairwise disjoint field names, create_request_model with
request type POST returns a flattened model with the base model as parent
type in which every field of every input model appears as a body parameter
whose alias, alias-priority, title, description, numeric bounds (gt/ge/lt/le),
length bounds (min_length/max_length), pattern, extra metadata and default
factory equal those of the original declaration, and whose default value
equals the original when one is declared, while a field with no declared
default (Undefined) receives default None. -/
theorem create_request_model_post_flatten
    (model_name : String) (base_model : RequestModel) (exts : List RequestModel)
    (hb : ∀ m ∈ base_model :: exts, m.kind = .body)
    (hnd : (((base_model :: exts).flatMap (fun m => m.fields)).map
      (fun f => f.name)).Nodup) :
    ∃ M, create_request_model model_name base_model (exts.map mkPostExtension) []
        "POST" = .ok M
      ∧ M.baseNames = [base_model.name]
      ∧ (∀ m ∈ base_model :: exts, ∀ f ∈ m.fields, ∃ g ∈ M.fields,
          g.name = f.name
          ∧ g.outer_type = f.outer_type
          ∧ g.info.«alias» = f.info.«alias»
          ∧ g.info.alias_priority = f.info.alias_priority
          ∧ g.info.title = f.info.title
          ∧ g.info.description = f.info.description
          ∧ g.info.gt = f.info.gt
          ∧ g.info.ge = f.info.ge
          ∧ g.info.lt = f.info.lt
          ∧ g.info.le = f.info.le
          ∧ g.info.min_length = f.info.min_length
          ∧ g.info.max_length = f.info.max_length
          ∧ g.info.regex = f.info.regex
          ∧ g.info.extra = f.info.extra
          ∧ g.info.default_factory = f.info.default_factory
          ∧ g.info.default = (match f.info.default with
              | .undefined => PyDefault.none
              | d => d)) := by
  have hmodels : requestModels base_model (exts.map mkPostExtension) [] "POST"
      = base_model :: exts := requestModels_mkPost base_model exts
  have hallq : (base_model :: exts).all (fun m => m.kind == .query) = false := by
    cases hall : (base_model :: exts).all (fun m => m.kind == .query) with
    | false => rfl
    | true =>
      have := List.all_eq_true.mp hall base_model (by simp)
      rw [hb base_model (by simp)] at this
      simp at this
  refine ⟨pydantic_create_model model_name
      (flattenBodyFields (base_model :: exts)) base_model, ?_, ?_, ?_⟩
  · rw [create_request_model, hmodels, hallq,
      all_kind_body_of_forall _ hb]
    simp
  · simp [pydantic_create_model]
  · intro m hm f hf
    refine ⟨bodyField f, ?_, ?_⟩
    · simp only [pydantic_create_model, flattenBodyFields_disjoint _ hnd]
      exact List.mem_map_of_mem _ (List.mem_flatMap.mpr ⟨m, hm, hf⟩)
    · refine ⟨rfl, rfl, ?_⟩
      simp [bodyField, bodyOfFieldInfo]

/-- Witness for the amended C3: composing the CrsExtensionPostRequest base
with the FilterExtensionPostRequest extension flattens all five fields with
their metadata preserved. -/
theorem create_request_model_post_flatten_witness :
    ∃ M, create_request_model "SearchPostRequest" CrsExtensionPostRequest
        ([FilterExtensionPostRequest].map mkPostExtension) [] "POST" = .ok M
      ∧ M.baseNames = [CrsExtensionPostRequest.name]
      ∧ (∀ m ∈ CrsExtensionPostRequest :: [FilterExtensionPostRequest],
          ∀ f ∈ m.fields, ∃ g ∈ M.fields,
          g.name = f.name
          ∧ g.outer_type = f.outer_type
          ∧ g.info.«alias» = f.info.«alias»
          ∧ g.info.alias_priority = f.info.alias_priority
          ∧ g.info.title = f.info.title
          ∧ g.info.description = f.info.description
          ∧ g.info.gt = f.info.gt
          ∧ g.info.ge = f.info.ge
          ∧ g.info.lt = f.info.lt
          ∧ g.info.le = f.info.le
          ∧ g.info.min_length = f.info.min_length
          ∧ g.info.max_length = f.info.max_length
          ∧ g.info.regex = f.info.regex
          ∧ g.info.extra = f.info.extra
          ∧ g.info.default_factory = f.info.default_factory
          ∧ g.info.default = (match f.info.default with
              | .undefined => PyDefault.none
              | d => d)) :=
  create_request_model_post_flatten "SearchPostRequest" CrsExtensionPostRequest
    [FilterExtensionPostRequest] (by decide) (by decide)

/-! ### Claims about the forwarding resolver -/

/-- C4: for every request scope carrying a Forwarded header with
proto=https;host=test:1234 (and no X-Forwarded-Prefix header), forwarded-URL
resolution takes scheme, host and port from that header alone and ignores
whatever X-Forwarded-Host, X-Forwarded-Port, X-Forwarded-Proto and Host
headers the scope carries, resolving to scheme https, host test, port 1234
and null path prefix. -/
theorem forwarded_header_wins (scope : Scope)
    (hfwd : getHeaderValueByName scope.headers "forwarded"
      = some "proto=https;host=test:1234")
    (hpre : getHeaderValueByName scope.headers "x-forwarded-prefix"
      = Option.none) :
    getForwardedUrlParts scope = ("https", "test", some 1234, Option.none) := by
  rw [getForwardedUrlParts, hfwd, hpre]
  rfl

/-- Witness for C4: the combined-header scope of the middleware tests, with
Forwarded next to X-Forwarded-Host, X-Forwarded-Port and X-Forwarded-Proto
headers, resolves from Forwarded alone. -/
theorem forwarded_header_wins_witness :
    getForwardedUrlParts
      { scheme := "http", serverHost := "testserver", serverPort := some 80,
        headers := [("forwarded", "proto=https;host=test:1234"),
                    ("x-forwarded-host", "another-test"),
                    ("x-forwarded-port", "1111"),
                    ("x-forwarded-proto", "https")] }
      = ("https", "test", some 1234, Option.none) :=
  forwarded_header_wins _ (by decide) (by decide)

/-- C5: for every request scope with a Forwarded header whose host=
directive has the shape host:port, the resolver splits the directive on the
last colon, and whenever the port segment does not parse as an integer the
resolved port is the original request's server port while the forwarded
host name is still accepted and no error is propagated. -/
theorem forwarded_nonnumeric_port_falls_back (scope : Scope)
    (fwd hostVal hostName portSeg : String)
    (hfwd : getHeaderValueByName scope.headers "forwarded" = some fwd)
    (hdir : parseDirectives fwd = [("proto", "https"), ("host", hostVal)])
    (hsplit : splitLastColon hostVal = (hostName, some portSeg))
    (hport : strToNat? portSeg = Option.none)
    (hpre : getHeaderValueByName scope.headers "x-forwarded-prefix"
      = Option.none) :
    getForwardedUrlParts scope
      = ("https", hostName, scope.serverPort, Option.none) := by
  have h1 : findDirective [("proto", "https"), ("host", hostVal)] "proto"
      = some "https" := rfl
  have h2 : findDirective [("proto", "https"), ("host", hostVal)] "host"
      = some hostVal := rfl
  simp only [getForwardedUrlParts, hfwd, hpre, hdir, h1, h2, hsplit, hport,
    Option.getD_some]

/-- Witness for C5: the malformed-port scope of the middleware tests,
Forwarded proto=https;host=test:not-an-integer with request server port 80,
resolves to https, test, 80, null. -/
theorem forwarded_nonnumeric_port_falls_back_witness :
    getForwardedUrlParts
      { scheme := "http", serverHost := "testserver", serverPort := some 80,
        headers := [("forwarded", "proto=https;host=test:not-an-integer")] }
      = ("https", "test", some 80, Option.none) :=
  forwarded_nonnumeric_port_falls_back _
    "proto=https;host=test:not-an-integer" "test:not-an-integer"
    "test" "not-an-integer"
    (by decide) (by decide) (by decide) (by decide) (by decide)

/-- C6: for every header list, header name and value, reading the named
header (case-insensitively, first match) from the list produced by
replacing that header's value yields the new value, both when the name was
present (replaced in place) and when it was absent (appended). -/
theorem get_replace_header_roundtrip (headers : List (String × String))
    (name value : String) :
    getHeaderValueByName (replaceHeaderValueByName headers name value) name
      = some value := by
  induction headers with
  | nil =>
    simp [replaceHeaderValueByName, getHeaderValueByName, headerNameEq,
      List.find?]
  | cons h rest ih =>
    cases hc : headerNameEq h.1 name with
    | true =>
      simp [replaceHeaderValueByName, hc, getHeaderValueByName, List.find?]
    | false =>
      simp only [replaceHeaderValueByName, hc]
      simp only [getHeaderValueByName, List.find?, hc] at ih ⊢
      exact ih

/-! ### Claims about the core-client registry -/

theorem foldl_append_classes (exts : List ApiExtension) :
    ∀ init : List String,
      exts.foldl (fun acc e => acc ++ e.conformance_classes) init
        = init ++ exts.flatMap (fun e => e.conformance_classes) := by
  induction exts with
  | nil => intro init; simp
  | cons e es ih =>
    intro init
    rw [List.foldl_cons, ih]
    simp [List.flatMap_cons]

/-- C7: for every core client, conformance_classes() returns a list that
holds exactly the URIs of the base list and of every extension's declared
classes and has no duplicate entries, even when two extensions declare an
overlapping class URI or an extension repeats a base class. -/
theorem conformance_classes_union_nodup (c : BaseCoreClient) :
    c.conformance_classes.Nodup
    ∧ ∀ u, u ∈ c.conformance_classes ↔
        (u ∈ c.base_conformance_classes
          ∨ ∃ e ∈ c.extensions, u ∈ e.conformance_classes) := by
  constructor
  · exact List.nodup_dedup _
  · intro u
    rw [BaseCoreClient.conformance_classes, List.mem_dedup,
      foldl_append_classes]
    simp [List.mem_flatMap]

theorem filter_head?_eq_find? {α : Type} (p : α → Bool) (l : List α) :
    (l.filter p).head? = l.find? p := by
  induction l with
  | nil => rfl
  | cons a l ih =>
    cases h : p a with
    | true => simp [List.filter_cons, h, List.find?]
    | false => simp [List.filter_cons, h, List.find?, ih]

/-- C8: for every core client and extension name, extension_is_enabled is
true exactly when some registered extension's declared type name equals the
string, and get_extension returns the first such extension in list order
when one exists and raises NotFound (an error value) when none matches. -/
theorem extension_lookup_spec (c : BaseCoreClient) (name : String) :
    (c.extension_is_enabled name = true
      ↔ ∃ e ∈ c.extensions, e.typeName = name)
    ∧ c.get_extension name
        = (match c.extensions.find? (fun e => e.typeName == name) with
           | some e => Except.ok e
           | Option.none =>
             Except.error ("Extenson " ++ name ++ " not found")) := by
  constructor
  · rw [BaseCoreClient.extension_is_enabled, List.any_eq_true]
    simp
  · rw [BaseCoreClient.get_extension, ← filter_head?_eq_find?]
    cases c.extensions.filter (fun e => e.typeName == name) with
    | nil => rfl
    | cons e l => rfl

/-- C9 (code bug): list_conformance_classes binds the module-level
BASE_CONFORMANCE_CLASSES list by reference and extends it in place, so on a
client with one extension declaring one conformance class a single call
already changes the module-level list and a repeated call returns a
different (longer) list - contradicting the read-only-after-startup
property the specification states and the sibling conformance_classes
(which copies) exhibits. -/
theorem list_conformance_classes_mutates_base :
    (let ext : ApiExtension :=
       { typeName := "CrsExtension",
         conformance_classes :=
           ["http://www.opengis.net/spec/ogcapi-features-2/1.0/conf/crs"],
         getRequest := Option.none, postRequest := Option.none }
     let st0 : ConformanceState := ⟨["https://api.stacspec.org/v1.0.0/core"]⟩
     let c : BaseCoreClient :=
       { base_conformance_classes := st0.BASE_CONFORMANCE_CLASSES,
         extensions := [ext] }
     let r1 := c.list_conformance_classes st0
     let r2 := c.list_conformance_classes r1.2
     r1.2.BASE_CONFORMANCE_CLASSES ≠ st0.BASE_CONFORMANCE_CLASSES
       ∧ r2.1 ≠ r1.1) := by
  decide

/-! ### Claim about the item-route request models -/

/-- C10: the request models of the item route and the item-collection route
declare CRS and filter parameters unconditionally, as part of their static
class declarations: ItemUri has a crs field defaulting to the CRS84 URI, and
ItemCollectionUri has limit (default 10), bbox, datetime, crs, bbox-crs and
filter-crs (each CRS field defaulting to the CRS84 URI), filter (default
null) and filter-lang (default cql-json). -/
theorem item_route_models_declare_crs_filter_fields :
    (ItemUri.getField "crs").map (fun f => f.info.default)
        = some (PyDefault.str CRS84)
    ∧ (ItemCollectionUri.getField "limit").map (fun f => f.info.default)
        = some (PyDefault.int 10)
    ∧ (ItemCollectionUri.getField "bbox").map (fun f => f.info.default)
        = some PyDefault.none
    ∧ (ItemCollectionUri.getField "datetime").map (fun f => f.info.default)
        = some PyDefault.none
    ∧ (ItemCollectionUri.getField "crs").map (fun f => f.info.default)
        = some (PyDefault.str CRS84)
    ∧ (ItemCollectionUri.getField "bbox_crs").map
          (fun f => (f.info.default, f.info.«alias»))
        = some (PyDefault.str CRS84, some "bbox-crs")
    ∧ (ItemCollectionUri.getField "filter_crs").map
          (fun f => (f.info.default, f.info.«alias»))
        = some (PyDefault.str CRS84, some "filter-crs")
    ∧ (ItemCollectionUri.getField "filter").map (fun f => f.info.default)
        = some PyDefault.none
    ∧ (ItemCollectionUri.getField "filter_lang").map
          (fun f => (f.info.default, f.info.«alias»))
        = some (PyDefault.str "cql-json", some "filter-lang") := by
  decide

end StacFastapi
